import Mathlib

/-!
Shallow embedding of the hodgepod podcast-transcript pipeline
(src/podcast_collector.py, src/payload_builder.py, src/notifier.py,
src/main.py, src/weaviate_config.py).

External collaborators (Deepgram speech-to-text, feedparser, requests,
the Weaviate client) are modelled as function parameters bundled in a
`World` record; a `none` result stands for the collaborator raising an
exception (or returning a response whose field accesses raise).
Python dictionaries whose keys may be absent are modelled as structures
of `Option` fields (`none` = key absent; reading an absent key raises
`KeyError`, which the enclosing `try`/`except` turns into the function's
failure result).
-/

namespace Hodgepod

/-- One word object of `results.channels[0].alternatives[0].words` in the
Deepgram response; only its presence in the list matters to the code. -/
structure DGWordObj where
  word : String
deriving DecidableEq, Repr

/-- The part of a well-formed Deepgram response that `transcribe_url`
reads: `paragraphs.transcript`, `metadata.duration`, `metadata.channels`
and the word list of the first channel's first alternative.  Durations
are opaque numbers to the code; they are modelled as `Nat`. -/
structure DGResult where
  transcript : String
  duration : Nat
  channels : Nat
  words : List DGWordObj
deriving DecidableEq, Repr

/-- One RSS entry as `process_feed` reads it: `episode.title` and the
`href`s of `episode.enclosures` (the code indexes `enclosures[0]`). -/
structure Entry where
  title : String
  enclosures : List String
deriving DecidableEq, Repr

/-- The environment of one run: the `DEEPGRAM_API_KEY` value
(`none` = unset), `feedparser.parse` (`none` = the parse raised), and
the whole Deepgram round trip of `transcribe_url`'s `try` block
(`none` = a network/auth error was raised or the response shape made a
field access raise). -/
structure World where
  apiKey : Option String
  parseFeed : String → Option (List Entry)
  transcribe : String → Option DGResult

/-- Python truthiness of `DEEPGRAM_API_KEY` as tested by
`if not DEEPGRAM_API_KEY:` — `None` and the empty string are falsy. -/
def truthyKey : Option String → Bool
  | none => false
  | some s => !(s == "")

/-- A metadata dictionary as it flows through the pipeline.  Each field
is one string key of the Python dict; `none` means the key is absent.
`podcast_name` and `published_date` are never written by the collector
but `store_podcast_transcript` reads them with `.get`. -/
structure MetaDict where
  duration : Option Nat := none
  channels : Option Nat := none
  words : Option Nat := none
  title : Option String := none
  feed_url : Option String := none
  episode_url : Option String := none
  podcast_name : Option String := none
  published_date : Option String := none
deriving DecidableEq, Repr

/-- A transcript record as built by `process_feed`:
`{'transcript': ..., 'metadata': {...}}`. -/
structure TRecord where
  transcript : String
  metadata : MetaDict
deriving DecidableEq, Repr

/-- Embedding of `transcribe_url` (src/podcast_collector.py lines 23-77).
On any exception it returns `("", {})`; on success it returns the
transcript text together with the metadata dict
`{'duration': ..., 'channels': ..., 'words': len(words)}`. -/
def transcribe_url (w : World) (url : String) : String × MetaDict :=
  match w.transcribe url with
  | none => ("", {})
  | some r =>
      (r.transcript,
       { duration := some r.duration, channels := some r.channels,
         words := some r.words.length })

/-- Embedding of `process_feed` (src/podcast_collector.py lines 79-126).
The `try` block first raises `ValueError` when the key is falsy, parses
the feed, returns `[]` on an empty feed, takes the first entry and its
first enclosure (an `IndexError` on a missing enclosure is caught by the
blanket `except`, yielding `[]`), transcribes, and emits one record only
when the transcript text is truthy. -/
def process_feed (w : World) (feed_url : String) : List TRecord :=
  if truthyKey w.apiKey then
    match w.parseFeed feed_url with
    | none => []
    | some [] => []
    | some (episode :: _) =>
      match episode.enclosures with
      | [] => []
      | episode_url :: _ =>
        let tm := transcribe_url w episode_url
        if tm.1 = "" then []
        else
          [⟨tm.1,
            { tm.2 with title := some episode.title,
                        feed_url := some feed_url,
                        episode_url := some episode_url }⟩]
  else []

/-- Embedding of `collect_transcripts` (src/podcast_collector.py lines
128-150): sequentially extends an accumulator with each feed's result. -/
def collect_transcripts (w : World) (feeds : List String) : List TRecord :=
  feeds.foldl (fun acc feed => acc ++ process_feed w feed) []

/-! Storage sink (src/weaviate_config.py, `store_podcast_transcript`). -/

/-- The flat field map handed to `client.data_object.create` for class
`PodcastTranscript` (src/weaviate_config.py lines 223-238). -/
structure DataObject where
  transcript : String
  title : String
  duration : Nat
  wordCount : Nat
  episodeUrl : String
  feedUrl : String
  podcastName : String
  publishedDate : Option String
deriving DecidableEq, Repr

/-- Splitting a character list at every character satisfying `p`,
keeping empty pieces: the char-level semantics of Python's
`str.split(sep)` for a one-character separator.  The result is always
non-empty. -/
def splitOnPred (p : Char → Bool) : List Char → List (List Char)
  | [] => [[]]
  | x :: xs =>
      if p x then [] :: splitOnPred p xs
      else
        match splitOnPred p xs with
        | [] => [[x]]
        | t :: ts => (x :: t) :: ts

/-- Python's `feed_url.split("/")[-1]`: the last component after
splitting on every slash.  `str.split(sep)` never returns an empty
list, so the `[-1]` index never raises; the `getD` default is dead
code. -/
def lastPathSegment (s : String) : String :=
  String.mk (((splitOnPred (fun c => c == '/') s.data).getLast?).getD [])

/-- A `transcript_data` argument of `store_podcast_transcript`: the
`"transcript"` and `"metadata"` keys, each possibly absent. -/
structure StoreInput where
  transcript : Option String := none
  metadata : Option MetaDict := none
deriving DecidableEq, Repr

/-- The `data_object` dictionary built inside the `try` block of
`store_podcast_transcript` (src/weaviate_config.py lines 223-238).
Accessing any of the required keys `transcript`, `metadata`,
`metadata["title"]`, `["duration"]`, `["words"]`, `["episode_url"]`,
`["feed_url"]` raises `KeyError` when absent, which the `except`
converts to `None`; `podcast_name` and `published_date` are read with
`.get` and so never raise. -/
def mkDataObject (td : StoreInput) : Option DataObject :=
  match td.transcript with
  | none => none
  | some tr =>
    match td.metadata with
    | none => none
    | some md =>
      match md.title, md.duration, md.words, md.episode_url, md.feed_url with
      | some ti, some du, some wo, some eu, some fu =>
          some { transcript := tr, title := ti, duration := du,
                 wordCount := wo, episodeUrl := eu, feedUrl := fu,
                 podcastName := md.podcast_name.getD (lastPathSegment fu),
                 publishedDate := md.published_date }
      | _, _, _, _, _ => none

/-- Embedding of `store_podcast_transcript` (src/weaviate_config.py
lines 214-249).  `create` is the opaque `client.data_object.create`
call returning `result["id"]`; a `none` from `create` stands for any
exception it raises (connectivity, validation, schema mismatch), and
the blanket `except` turns every exception of the `try` block into the
return value `None`. -/
def store_podcast_transcript (create : DataObject → Option String)
    (td : StoreInput) : Option String :=
  match mkDataObject td with
  | none => none
  | some d =>
    match create d with
    | none => none
    | some id => some id

/-! Payload builder, notifier and main (src/payload_builder.py,
src/notifier.py, src/main.py). -/

/-- The JSON payload `{"transcripts": [...]}`. -/
structure Payload where
  transcripts : List String
deriving DecidableEq, Repr

/-- Embedding of `build_payload` (src/payload_builder.py). -/
def build_payload (transcripts : List String) : Payload :=
  ⟨transcripts⟩

/-- An HTTP response as `send_payload` reads it: `status_code` and the
JSON body returned by `response.json()`. -/
structure HttpResponse where
  status : Nat
  body : String
deriving DecidableEq, Repr

/-- Embedding of `send_payload` (src/notifier.py lines 8-18).  `post`
is `requests.post`; `Except.error` stands for the exception it raises
on a connectivity failure.  The function has no `try`/`except`, so that
exception propagates; on a response (any status code, success or not)
it logs and returns.  The `Except.ok` value carries the log lines. -/
def send_payload (post : String → Payload → Except String HttpResponse)
    (endpoint : String) (payload : Payload) : Except String (List String) :=
  match post endpoint payload with
  | Except.error e => Except.error e
  | Except.ok resp =>
      Except.ok ["Sending payload to " ++ endpoint,
                 "Response status: " ++ toString resp.status
                   ++ ", Response: " ++ resp.body]

/-- The hard-coded feed list of `main` (src/main.py lines 38-41). -/
def mainFeeds : List String :=
  ["https://feeds.npr.org/510318/podcast.xml",
   "https://feeds.megaphone.fm/WWO6655869236"]

/-- The hard-coded dispatch endpoint of `main` (src/main.py line 64). -/
def notebookEndpoint : String := "https://api.notebookllm.com/process"

/-- Embedding of `main` (src/main.py lines 30-74).  `Except.ok none` is
the early `return` taken when no transcripts were collected (logged as
an error, no payload built, no dispatch); `Except.ok (some logs)` is a
completed run with a dispatched payload; `Except.error e` is `main`'s
own `except` catching an exception, logging it, and re-raising it. -/
def main_run (w : World)
    (post : String → Payload → Except String HttpResponse) :
    Except String (Option (List String)) :=
  let results := collect_transcripts w mainFeeds
  if results.isEmpty then Except.ok none
  else
    let transcripts := results.map (fun r => r.transcript)
    let payload := build_payload transcripts
    match send_payload post notebookEndpoint payload with
    | Except.error e => Except.error e
    | Except.ok logs => Except.ok (some logs)

/-! Spec-side definition, for the word-count refinement claim only. -/

/-- Written from the spec's words, not from the source: the count of
whitespace-separated tokens of a string, Python `len(s.split())` —
split on whitespace and drop empty tokens. -/
def specWordCount (s : String) : Nat :=
  ((splitOnPred Char.isWhitespace s.data).filter (fun t => !t.isEmpty)).length

/-! Concrete worlds and inputs used to instantiate the theorems. -/

/-- A feed entry with one audio enclosure. -/
def exEntry : Entry := ⟨"Episode One", ["https://cdn.example.com/ep1.mp3"]⟩

/-- A Deepgram result whose transcript has two whitespace tokens but
whose word list has three elements. -/
def exResp : DGResult :=
  ⟨"hello world", 12, 1, [⟨"hello"⟩, ⟨"world"⟩, ⟨"extra"⟩]⟩

/-- A world where every feed parses to one entry and every
transcription succeeds with `exResp`. -/
def wGood : World :=
  { apiKey := some "key",
    parseFeed := fun _ => some [exEntry],
    transcribe := fun _ => some exResp }

/-- The record `process_feed wGood "feedA"` produces. -/
def recGood : TRecord :=
  ⟨"hello world",
   { duration := some 12, channels := some 1, words := some 3,
     title := some "Episode One", feed_url := some "feedA",
     episode_url := some "https://cdn.example.com/ep1.mp3" }⟩

/-- Like `wGood` except that parsing the feed `"bad"` raises. -/
def wMixed : World :=
  { apiKey := some "key",
    parseFeed := fun u => if u = "bad" then none else some [exEntry],
    transcribe := fun _ => some exResp }

/-- A fully working world whose `DEEPGRAM_API_KEY` is unset. -/
def wNoKey : World :=
  { apiKey := none,
    parseFeed := fun _ => some [exEntry],
    transcribe := fun _ => some exResp }

/-- A world whose feeds all parse to zero entries. -/
def wEmpty : World :=
  { apiKey := some "key",
    parseFeed := fun _ => some [],
    transcribe := fun _ => some exResp }

/-- A `requests.post` that always returns HTTP 404. -/
def postNotFound : String → Payload → Except String HttpResponse :=
  fun _ _ => Except.ok ⟨404, "not found"⟩

/-- A `requests.post` that always raises a connection error. -/
def postFail : String → Payload → Except String HttpResponse :=
  fun _ _ => Except.error "connection refused"

/-- A `client.data_object.create` that always succeeds. -/
def createOk : DataObject → Option String := fun _ => some "uuid-1"

/-- A complete metadata dict without `podcast_name`/`published_date`. -/
def mdFull : MetaDict :=
  { duration := some 12, channels := some 1, words := some 3,
    title := some "Episode One",
    feed_url := some "https://ex.com/shows/mypod",
    episode_url := some "https://cdn.example.com/ep1.mp3" }

/-- A store input carrying every required key. -/
def tdFull : StoreInput := ⟨some "hello world", some mdFull⟩

/-- The data object `mkDataObject tdFull` evaluates to. -/
def dFull : DataObject :=
  ⟨"hello world", "Episode One", 12, 3, "https://cdn.example.com/ep1.mp3",
   "https://ex.com/shows/mypod", "mypod", none⟩

/-- Feed-reading or transcription failure of one feed, as observed by
`process_feed`: the parse raises, the feed is empty, the first entry
has no enclosure, the transcription raises, or it returns empty text. -/
def feedFails (w : World) (u : String) : Bool :=
  match w.parseFeed u with
  | none => true
  | some [] => true
  | some (e :: _) =>
    match e.enclosures with
    | [] => true
    | enc :: _ =>
      match w.transcribe enc with
      | none => true
      | some r => r.transcript == ""

/-! Basic unfolding lemmas for the collection loop. -/

theorem collect_foldl_acc (w : World) (fs : List String) :
    ∀ a : List TRecord,
      fs.foldl (fun acc feed => acc ++ process_feed w feed) a
        = a ++ fs.foldl (fun acc feed => acc ++ process_feed w feed) [] := by
  induction fs with
  | nil => intro a; simp
  | cons f fs ih =>
      intro a
      simp only [List.foldl_cons]
      rw [ih (a ++ process_feed w f), ih ([] ++ process_feed w f)]
      simp [List.append_assoc]

theorem collect_nil (w : World) : collect_transcripts w [] = [] := rfl

theorem collect_cons (w : World) (f : String) (fs : List String) :
    collect_transcripts w (f :: fs)
      = process_feed w f ++ collect_transcripts w fs := by
  unfold collect_transcripts
  simp only [List.foldl_cons, List.nil_append]
  exact collect_foldl_acc w fs (process_feed w f)

theorem collect_append (w : World) (l₁ l₂ : List String) :
    collect_transcripts w (l₁ ++ l₂)
      = collect_transcripts w l₁ ++ collect_transcripts w l₂ := by
  induction l₁ with
  | nil => simp [collect_nil]
  | cons f fs ih =>
      simp [collect_cons, ih, List.append_assoc]

/-- Full characterization of `process_feed`: it yields either no record
or exactly the one record built from the first entry's first enclosure
and a successful, non-empty transcription of it. -/
theorem process_feed_char (w : World) (u : String) :
    process_feed w u = [] ∨
    ∃ e es enc encs resp,
      w.parseFeed u = some (e :: es) ∧
      e.enclosures = enc :: encs ∧
      w.transcribe enc = some resp ∧
      resp.transcript ≠ "" ∧
      process_feed w u =
        [⟨resp.transcript,
          { duration := some resp.duration, channels := some resp.channels,
            words := some resp.words.length, title := some e.title,
            feed_url := some u, episode_url := some enc }⟩] := by
  by_cases hk : truthyKey w.apiKey
  · cases hp : w.parseFeed u with
    | none => left; simp [process_feed, hk, hp]
    | some entries =>
      cases entries with
      | nil => left; simp [process_feed, hk, hp]
      | cons e es =>
        cases he : e.enclosures with
        | nil => left; simp [process_feed, hk, hp, he]
        | cons enc encs =>
          cases ht : w.transcribe enc with
          | none => left; simp [process_feed, hk, hp, he, transcribe_url, ht]
          | some resp =>
            by_cases hts : resp.transcript = ""
            · left; simp [process_feed, hk, hp, he, transcribe_url, ht, hts]
            · right
              refine ⟨e, es, enc, encs, resp, rfl, he, ht, hts, ?_⟩
              simp [process_feed, hk, hp, he, transcribe_url, ht, hts]
  · left; simp [process_feed, hk]

theorem process_feed_eq_nil_of_fails (w : World) (u : String)
    (h : feedFails w u = true) : process_feed w u = [] := by
  rcases process_feed_char w u with h0 | ⟨e, es, enc, encs, resp, hp, he, ht, hts, hr⟩
  · exact h0
  · exfalso
    simp [feedFails, hp, he, ht] at h
    exact hts h

theorem process_feed_ok (w : World) (u : String)
    (hk : truthyKey w.apiKey = true) (h : feedFails w u = false) :
    ∃ r, process_feed w u = [r] := by
  cases hp : w.parseFeed u with
  | none => simp [feedFails, hp] at h
  | some entries =>
    cases entries with
    | nil => simp [feedFails, hp] at h
    | cons e es =>
      cases he : e.enclosures with
      | nil => simp [feedFails, hp, he] at h
      | cons enc encs =>
        cases ht : w.transcribe enc with
        | none => simp [feedFails, hp, he, ht] at h
        | some resp =>
          have hts : resp.transcript ≠ "" := by
            simp [feedFails, hp, he, ht] at h
            exact h
          refine ⟨⟨resp.transcript,
            { duration := some resp.duration, channels := some resp.channels,
              words := some resp.words.length, title := some e.title,
              feed_url := some u, episode_url := some enc }⟩, ?_⟩
          simp [process_feed, hk, hp, he, transcribe_url, ht, hts]

theorem collect_length_ok (w : World) (hk : truthyKey w.apiKey = true) :
    ∀ l : List String, (∀ u ∈ l, feedFails w u = false) →
      (collect_transcripts w l).length = l.length := by
  intro l
  induction l with
  | nil => intro _; rfl
  | cons f fs ih =>
    intro hall
    obtain ⟨r, hr⟩ := process_feed_ok w f hk (hall f (by simp))
    rw [collect_cons, List.length_append, hr,
        ih (fun u hu => hall u (by simp [hu]))]
    simp [Nat.add_comm]

/-- Every record of a collection run comes from some input feed whose
first entry's first enclosure was transcribed successfully with
non-empty text, and the record is exactly the one `process_feed`
assembles from that data. -/
theorem mem_collect (w : World) (feeds : List String) (r : TRecord)
    (hr : r ∈ collect_transcripts w feeds) :
    ∃ u ∈ feeds, ∃ e es enc encs resp,
      w.parseFeed u = some (e :: es) ∧
      e.enclosures = enc :: encs ∧
      w.transcribe enc = some resp ∧
      resp.transcript ≠ "" ∧
      r = ⟨resp.transcript,
        { duration := some resp.duration, channels := some resp.channels,
          words := some resp.words.length, title := some e.title,
          feed_url := some u, episode_url := some enc }⟩ := by
  induction feeds with
  | nil => simp [collect_nil] at hr
  | cons f fs ih =>
    rw [collect_cons, List.mem_append] at hr
    cases hr with
    | inr h =>
        obtain ⟨u, hu, rest⟩ := ih h
        exact ⟨u, by simp [hu], rest⟩
    | inl h =>
        rcases process_feed_char w f with h0 |
          ⟨e, es, enc, encs, resp, hp, he, ht, hts, hpf⟩
        · rw [h0] at h; simp at h
        · rw [hpf] at h
          simp only [List.mem_singleton] at h
          exact ⟨f, by simp, e, es, enc, encs, resp, hp, he, ht, hts, h⟩

/-! The claims. -/

/-- C1, counterexample: the claim that every record's word count equals
the whitespace-token count of its transcript text fails — in `wGood`
the provider's word list has three entries while the transcript
"hello world" has two whitespace tokens, and the produced record
carries the provider's count 3. -/
theorem C1_counterexample :
    (collect_transcripts wGood ["feedA"]).map (fun r => r.metadata.words)
        = [some 3] ∧
    (collect_transcripts wGood ["feedA"]).map
        (fun r => specWordCount r.transcript) = [2] ∧
    some (3 : Nat) ≠ some 2 := by
  refine ⟨by decide, by decide, by decide⟩

/-- C1, amended: every produced record's `metadata['words']` is the
length of the upstream provider's word list (and its transcript is the
provider's transcript text); the count is not recomputed by splitting
the transcript on whitespace. -/
theorem C1_provider_word_count (w : World) (feeds : List String)
    (r : TRecord) (hr : r ∈ collect_transcripts w feeds) :
    ∃ enc resp, w.transcribe enc = some resp ∧
      r.transcript = resp.transcript ∧
      r.metadata.words = some resp.words.length := by
  obtain ⟨u, -, e, es, enc, encs, resp, hp, he, ht, hts, hrec⟩ :=
    mem_collect w feeds r hr
  subst hrec
  exact ⟨enc, resp, ht, rfl, rfl⟩

/-- C1, witness for the amended theorem at the concrete world `wGood`. -/
theorem C1_provider_word_count_witness :
    ∃ enc resp, wGood.transcribe enc = some resp ∧
      recGood.transcript = resp.transcript ∧
      recGood.metadata.words = some resp.words.length :=
  C1_provider_word_count wGood ["feedA"] recGood (by decide)

/-- C2: with the API key present, when one feed `fk` fails at feed
reading or transcription and every other feed succeeds,
`collect_transcripts` still processes the feeds after `fk` (the result
splits as the prefix's records followed by the suffix's records) and
returns exactly N−1 records. -/
theorem C2_failure_isolation (w : World) (pre post : List String)
    (fk : String)
    (hk : truthyKey w.apiKey = true)
    (hfail : feedFails w fk = true)
    (hok : ∀ u ∈ pre ++ post, feedFails w u = false) :
    collect_transcripts w (pre ++ fk :: post)
      = collect_transcripts w pre ++ collect_transcripts w post ∧
    (collect_transcripts w (pre ++ fk :: post)).length
      = (pre ++ fk :: post).length - 1 := by
  have hsplit : collect_transcripts w (pre ++ fk :: post)
      = collect_transcripts w pre ++ collect_transcripts w post := by
    rw [collect_append, collect_cons, process_feed_eq_nil_of_fails w fk hfail]
    rfl
  have hpre : (collect_transcripts w pre).length = pre.length :=
    collect_length_ok w hk pre (fun u hu => hok u (List.mem_append_left _ hu))
  have hpost : (collect_transcripts w post).length = post.length :=
    collect_length_ok w hk post
      (fun u hu => hok u (List.mem_append_right _ hu))
  refine ⟨hsplit, ?_⟩
  rw [hsplit, List.length_append, hpre, hpost, List.length_append,
      List.length_cons]
  omega

/-- C2, witness: in `wMixed` the middle feed `"bad"` fails and feeds
`"a"` and `"b"` succeed; the batch still covers `"b"` and has 3−1 = 2
records. -/
theorem C2_failure_isolation_witness :
    collect_transcripts wMixed (["a"] ++ "bad" :: ["b"])
      = collect_transcripts wMixed ["a"] ++ collect_transcripts wMixed ["b"] ∧
    (collect_transcripts wMixed (["a"] ++ "bad" :: ["b"])).length
      = (["a"] ++ "bad" :: ["b"]).length - 1 :=
  C2_failure_isolation wMixed ["a"] ["b"] "bad" (by decide) (by decide)
    (by decide)

/-- C3: the records' `feed_url`s form a sublist of the input feeds (the
output order is the input order restricted to the feeds that produced a
record, with no reordering), each feed contributes at most one record,
and the result is never longer than the input. -/
theorem C3_order_preservation (w : World) (feeds : List String) :
    List.Sublist
      ((collect_transcripts w feeds).map (fun r => r.metadata.feed_url))
      (feeds.map some) ∧
    (collect_transcripts w feeds).length ≤ feeds.length ∧
    ∀ u, (process_feed w u).length ≤ 1 := by
  have hsub : ∀ l : List String,
      List.Sublist
        ((collect_transcripts w l).map (fun r => r.metadata.feed_url))
        (l.map some) := by
    intro l
    induction l with
    | nil => simp [collect_nil]
    | cons f fs ih =>
      rw [collect_cons, List.map_append, List.map_cons]
      rcases process_feed_char w f with h0 |
        ⟨e, es, enc, encs, resp, hp, he, ht, hts, hpf⟩
      · rw [h0]
        simpa using List.Sublist.cons (some f) ih
      · rw [hpf]
        simpa using List.Sublist.cons₂ (some f) ih
  refine ⟨hsub feeds, ?_, ?_⟩
  · have h := (hsub feeds).length_le
    simpa using h
  · intro u
    rcases process_feed_char w u with h0 |
      ⟨e, es, enc, encs, resp, hp, he, ht, hts, hpf⟩
    · simp [h0]
    · simp [hpf]

/-- C4: every collected record has non-empty transcript text coming
from a successful transcription call, and a feed whose first entry's
enclosure fails to transcribe or transcribes to empty text produces no
record. -/
theorem C4_record_requires_success (w : World) (feeds : List String) :
    (∀ r ∈ collect_transcripts w feeds, r.transcript ≠ "" ∧
        ∃ enc resp, w.transcribe enc = some resp ∧
          resp.transcript = r.transcript) ∧
    (∀ u e es enc encs, w.parseFeed u = some (e :: es) →
        e.enclosures = enc :: encs →
        (w.transcribe enc = none ∨
          ∃ resp, w.transcribe enc = some resp ∧ resp.transcript = "") →
        process_feed w u = []) := by
  constructor
  · intro r hr
    obtain ⟨u, -, e, es, enc, encs, resp, hp, he, ht, hts, hrec⟩ :=
      mem_collect w feeds r hr
    subst hrec
    exact ⟨hts, enc, resp, ht, rfl⟩
  · intro u e es enc encs hp he hfail
    by_cases hk : truthyKey w.apiKey
    · rcases hfail with ht | ⟨resp, ht, hts⟩
      · simp [process_feed, hk, hp, he, transcribe_url, ht]
      · simp [process_feed, hk, hp, he, transcribe_url, ht, hts]
    · simp [process_feed, hk]

/-- C4, witness at the concrete world `wGood`. -/
theorem C4_record_requires_success_witness :
    recGood.transcript ≠ "" ∧
    ∃ enc resp, wGood.transcribe enc = some resp ∧
      resp.transcript = recGood.transcript :=
  (C4_record_requires_success wGood ["feedA"]).1 recGood (by decide)

/-- C5, counterexample: the claim that a connectivity failure is logged
but does not raise, the run still completing, fails — `send_payload`
has no exception handler, so the error from the POST propagates out of
it, and `main` re-raises it, so the run ends in that error rather than
completing. -/
theorem C5_counterexample :
    send_payload postFail notebookEndpoint (build_payload ["text"])
      = Except.error "connection refused" ∧
    main_run wGood postFail = Except.error "connection refused" :=
  ⟨rfl, rfl⟩

/-- C5, amended: dispatching performs one outbound POST; on any
response (success status or not) the remote status and body are logged
and nothing is raised, but a connectivity failure propagates out of
`send_payload` and out of `main` (which logs and re-raises), aborting
the run. -/
theorem C5_dispatch_behavior
    (post : String → Payload → Except String HttpResponse) :
    (∀ endpoint payload resp, post endpoint payload = Except.ok resp →
        send_payload post endpoint payload =
          Except.ok ["Sending payload to " ++ endpoint,
            "Response status: " ++ toString resp.status
              ++ ", Response: " ++ resp.body]) ∧
    (∀ endpoint payload e, post endpoint payload = Except.error e →
        send_payload post endpoint payload = Except.error e) ∧
    (∀ w e, collect_transcripts w mainFeeds ≠ [] →
        post notebookEndpoint
            (build_payload
              ((collect_transcripts w mainFeeds).map (fun r => r.transcript)))
          = Except.error e →
        main_run w post = Except.error e) := by
  refine ⟨?_, ?_, ?_⟩
  · intro endpoint payload resp h
    simp [send_payload, h]
  · intro endpoint payload e h
    simp [send_payload, h]
  · intro w e hne h
    simp only [main_run]
    cases hres : collect_transcripts w mainFeeds with
    | nil => exact absurd hres hne
    | cons a as =>
        rw [hres] at h
        simp only [List.map_cons] at h
        simp [send_payload, h]

/-- C5, witness for the amended theorem: a 404 response is logged and
returned rather than raised. -/
theorem C5_dispatch_behavior_witness :
    send_payload postNotFound notebookEndpoint (build_payload ["text"])
      = Except.ok ["Sending payload to " ++ notebookEndpoint,
          "Response status: " ++ toString (404 : Nat)
            ++ ", Response: " ++ "not found"] :=
  (C5_dispatch_behavior postNotFound).1 notebookEndpoint
    (build_payload ["text"]) ⟨404, "not found"⟩ rfl

/-- C6: when the collection over `main`'s feed list comes back empty,
`main` returns at the early-exit branch: no payload is built and no
outbound call is made, whatever `post` would do. -/
theorem C6_empty_result_hard_stop (w : World)
    (post : String → Payload → Except String HttpResponse)
    (h : collect_transcripts w mainFeeds = []) :
    main_run w post = Except.ok none := by
  simp [main_run, h]

/-- C6, witness at the world whose feeds all parse to zero entries. -/
theorem C6_empty_result_hard_stop_witness :
    main_run wEmpty postNotFound = Except.ok none :=
  C6_empty_result_hard_stop wEmpty postNotFound rfl

/-- C7, counterexample: the claim that an absent API key aborts the run
at startup before any per-feed processing fails — in `wNoKey` (key
unset, everything else working) each feed is still processed and
swallows the `ValueError` itself, the batch iterates all feeds, and the
run completes normally with `Except.ok none` instead of surfacing an
error; with the key restored the same feeds produce records. -/
theorem C7_counterexample :
    process_feed wNoKey "feedA" = [] ∧
    collect_transcripts wNoKey ["feedA", "feedB"] = [] ∧
    main_run wNoKey postNotFound = Except.ok none ∧
    collect_transcripts { wNoKey with apiKey := some "key" }
        ["feedA", "feedB"] ≠ [] := by
  refine ⟨rfl, rfl, rfl, by decide⟩

/-- C7, amended: an absent (or empty) API key is detected separately
inside every `process_feed` call, where the raised `ValueError` is
caught by that call's own blanket handler: every feed contributes no
record, the whole batch still runs, and `main` completes normally via
its empty-result branch rather than aborting at startup. -/
theorem C7_missing_key_per_feed (w : World) (feeds : List String)
    (post : String → Payload → Except String HttpResponse)
    (h : truthyKey w.apiKey = false) :
    (∀ u, process_feed w u = []) ∧
    collect_transcripts w feeds = [] ∧
    main_run w post = Except.ok none := by
  have hpf : ∀ u, process_feed w u = [] := by
    intro u
    simp [process_feed, h]
  have hcol : ∀ l : List String, collect_transcripts w l = [] := by
    intro l
    induction l with
    | nil => rfl
    | cons f fs ih =>
        rw [collect_cons, hpf, ih]
        rfl
  exact ⟨hpf, hcol feeds, by simp [main_run, hcol mainFeeds]⟩

/-- C7, witness for the amended theorem at `wNoKey`. -/
theorem C7_missing_key_per_feed_witness :
    collect_transcripts wNoKey ["feedA"] = [] ∧
    main_run wNoKey postNotFound = Except.ok none :=
  (C7_missing_key_per_feed wNoKey ["feedA"] postNotFound rfl).2

/-- C8: `store_podcast_transcript` maps the record onto the schema's
field names (`mkDataObject`) and issues one `create` call; it returns
the store-generated identifier when `create` succeeds, and `None` both
when `create` raises and when the field mapping itself fails, never
propagating an exception. -/
theorem C8_store_boundary (create : DataObject → Option String)
    (td : StoreInput) :
    (∀ d id, mkDataObject td = some d → create d = some id →
        store_podcast_transcript create td = some id) ∧
    (∀ d, mkDataObject td = some d → create d = none →
        store_podcast_transcript create td = none) ∧
    (mkDataObject td = none → store_podcast_transcript create td = none) := by
  refine ⟨?_, ?_, ?_⟩
  · intro d id hd hc
    simp [store_podcast_transcript, hd, hc]
  · intro d hd hc
    simp [store_podcast_transcript, hd, hc]
  · intro hd
    simp [store_podcast_transcript, hd]

/-- C8, witness: storing a complete record through an always-succeeding
`create` returns its identifier. -/
theorem C8_store_boundary_witness :
    store_podcast_transcript createOk tdFull = some "uuid-1" :=
  (C8_store_boundary createOk tdFull).1 dFull "uuid-1" (by decide) rfl

/-- C9: when the metadata does not supply `podcast_name`, the
`podcastName` field of the stored data object is the last path segment
(`split("/")[-1]`) of the record's feed URL. -/
theorem C9_podcast_name_default (td : StoreInput) (md : MetaDict)
    (fu : String) (d : DataObject)
    (hmd : td.metadata = some md)
    (hpn : md.podcast_name = none)
    (hfu : md.feed_url = some fu)
    (hd : mkDataObject td = some d) :
    d.podcastName = lastPathSegment fu := by
  rcases htr : td.transcript with _ | tr
  · simp [mkDataObject, htr] at hd
  · rcases hti : md.title with _ | ti
    · simp [mkDataObject, htr, hmd, hti] at hd
    · rcases hdu : md.duration with _ | du
      · simp [mkDataObject, htr, hmd, hti, hdu] at hd
      · rcases hwo : md.words with _ | wo
        · simp [mkDataObject, htr, hmd, hti, hdu, hwo] at hd
        · rcases heu : md.episode_url with _ | eu
          · simp [mkDataObject, htr, hmd, hti, hdu, hwo, heu] at hd
          · simp only [mkDataObject, htr, hmd, hti, hdu, hwo, heu, hfu,
              hpn, Option.some.injEq] at hd
            subst hd
            simp

/-- C9, witness: for the concrete feed URL
"https://ex.com/shows/mypod" the stored `podcastName` is its last path
segment. -/
theorem C9_podcast_name_default_witness :
    dFull.podcastName = lastPathSegment "https://ex.com/shows/mypod" :=
  C9_podcast_name_default tdFull mdFull "https://ex.com/shows/mypod" dFull
    rfl rfl rfl (by decide)

/-- C10: the store returns `None` when any of the required keys —
`transcript`, `metadata`, or metadata's `title`, `duration`, `words`,
`episode_url`, `feed_url` — is absent, while an absent
`published_date` does not cause failure: the data object is still built
with a null `publishedDate` and handed to `create`. -/
theorem C10_store_required_keys (create : DataObject → Option String)
    (td : StoreInput) :
    ((td.transcript = none ∨ td.metadata = none ∨
        ∃ md, td.metadata = some md ∧
          (md.title = none ∨ md.duration = none ∨ md.words = none ∨
           md.episode_url = none ∨ md.feed_url = none)) →
      store_podcast_transcript create td = none) ∧
    (∀ tr md ti du wo eu fu,
        td.transcript = some tr → td.metadata = some md →
        md.title = some ti → md.duration = some du → md.words = some wo →
        md.episode_url = some eu → md.feed_url = some fu →
        md.published_date = none →
        ∃ d, mkDataObject td = some d ∧ d.publishedDate = none ∧
          store_podcast_transcript create td = create d) := by
  constructor
  · intro hmiss
    have hnone : mkDataObject td = none := by
      unfold mkDataObject
      split
      · rfl
      · split
        · rfl
        · split
          · exfalso
            rcases hmiss with h | h | ⟨md2, hmd2, hf⟩ <;> simp_all
          · rfl
    simp [store_podcast_transcript, hnone]
  · intro tr md ti du wo eu fu htr hmd hti hdu hwo heu hfu hpd
    refine ⟨⟨tr, ti, du, wo, eu, fu,
      md.podcast_name.getD (lastPathSegment fu), none⟩, ?_, rfl, ?_⟩
    · simp [mkDataObject, htr, hmd, hti, hdu, hwo, heu, hfu, hpd]
    · rcases hc : create ⟨tr, ti, du, wo, eu, fu,
          md.podcast_name.getD (lastPathSegment fu), none⟩ with _ | id <;>
        simp [store_podcast_transcript, mkDataObject, htr, hmd, hti, hdu,
          hwo, heu, hfu, hpd, hc]

/-- C10, witness: with every required key present and `published_date`
absent, the data object is built with a null `publishedDate` and the
store call goes through to `create`. -/
theorem C10_store_required_keys_witness :
    ∃ d, mkDataObject tdFull = some d ∧ d.publishedDate = none ∧
      store_podcast_transcript createOk tdFull = createOk d :=
  (C10_store_required_keys createOk tdFull).2 "hello world" mdFull
    "Episode One" 12 3 "https://cdn.example.com/ep1.mp3"
    "https://ex.com/shows/mypod" rfl rfl rfl rfl rfl rfl rfl rfl

end Hodgepod
